import Mathlib

/-!
Shallow embedding of `generate_ics.py` (LBC "What's On" → ICS feed generator).

The pipeline: fetch category pages, locate event cards in the markup, extract
title / link / date-time text, normalize into timezone-aware datetimes
(Europe/London wall clock), deduplicate by the (title, start-iso, url) key and
emit calendar events whose uid is a truncated SHA-256 digest of
`url + "|" + start.isoformat()` with an `@lbc-ics` namespace suffix.

External collaborators (HTTP fetch, BeautifulSoup selection, dateutil, zoneinfo,
icalendar serialization) are modelled at their interfaces: a `Card` is the
record of what the CSS selectors of `iter_event_cards` extract from one
`div.w-layout-grid.whatson-events` container, a `PageFetch` is the outcome of
one `fetch` call, and the dateutil calls are modelled on exactly the string
shapes the script hands to them.
-/

namespace LBC

/-! ### Basic character utilities -/

/-- ASCII decimal digit test (regex `\d` on the ASCII inputs at hand). -/
def isDigitC (c : Char) : Bool := '0' ≤ c && c ≤ '9'

/-- Python `str.split` / `str.strip` whitespace (ASCII subset). -/
def isSpaceB (c : Char) : Bool :=
  c = ' ' || c = '\t' || c = '\n' || c = '\r' || c = '\x0b' || c = '\x0c'

/-- Regex word character `\w` (ASCII subset), used for `\b` boundaries. -/
def isWordChar (c : Char) : Bool :=
  isDigitC c || (97 ≤ c.toNat && c.toNat ≤ 122) || (65 ≤ c.toNat && c.toNat ≤ 90) || c == '_'

/-- Numeric value of a decimal digit character. -/
def digitVal (c : Char) : Nat := c.toNat - 48

/-- `int` on a string of decimal digits. -/
def digitsToNat (ds : List Char) : Nat := ds.foldl (fun a c => a * 10 + digitVal c) 0

/-- Leading-whitespace strip. -/
def stripLeft (s : List Char) : List Char := s.dropWhile isSpaceB

/-- Python `str.strip()`. -/
def strip (s : List Char) : List Char := ((stripLeft s).reverse.dropWhile isSpaceB).reverse

/-- One word-splitting pass of Python `str.split()`: `cur` holds the current
word reversed. -/
def pyWordsAux : List Char → List Char → List (List Char)
  | [], cur => if cur.isEmpty then [] else [cur.reverse]
  | c :: cs, cur =>
    if isSpaceB c then
      if cur.isEmpty then pyWordsAux cs [] else cur.reverse :: pyWordsAux cs []
    else pyWordsAux cs (c :: cur)

/-- Python `str.split()` (split on whitespace runs, no empty words). -/
def pyWords (s : List Char) : List (List Char) := pyWordsAux s []

/-- Python `" ".join(s.split())` — the whitespace normalization applied to the
card text and title in `iter_event_cards`. -/
def pyNormalize (s : List Char) : List Char := List.intercalate [' '] (pyWords s)

/-! ### SHA-256 (`hashlib.sha256`), on `Nat` with explicit mod-2^32 arithmetic -/

/-- Truncate to a 32-bit word. -/
def w32 (n : Nat) : Nat := n % 4294967296

/-- 32-bit modular addition. -/
def addw (a b : Nat) : Nat := w32 (a + b)

/-- Right rotation of a 32-bit word by `k`. -/
def rotr (k n : Nat) : Nat := w32 (n / 2 ^ k + n % 2 ^ k * 2 ^ (32 - k))

/-- Logical right shift by `k`. -/
def shr (k n : Nat) : Nat := n / 2 ^ k

/-- Bitwise complement of a 32-bit word. -/
def notw (n : Nat) : Nat := Nat.xor n 4294967295

def ch (x y z : Nat) : Nat := Nat.xor (Nat.land x y) (Nat.land (notw x) z)

def maj (x y z : Nat) : Nat :=
  Nat.xor (Nat.land x y) (Nat.xor (Nat.land x z) (Nat.land y z))

def bsig0 (n : Nat) : Nat := Nat.xor (rotr 2 n) (Nat.xor (rotr 13 n) (rotr 22 n))
def bsig1 (n : Nat) : Nat := Nat.xor (rotr 6 n) (Nat.xor (rotr 11 n) (rotr 25 n))
def ssig0 (n : Nat) : Nat := Nat.xor (rotr 7 n) (Nat.xor (rotr 18 n) (shr 3 n))
def ssig1 (n : Nat) : Nat := Nat.xor (rotr 17 n) (Nat.xor (rotr 19 n) (shr 10 n))

/-- SHA-256 round constants. -/
def K256 : List Nat :=
  [1116352408, 1899447441, 3049323471, 3921009573,
  961987163, 1508970993, 2453635748, 2870763221,
  3624381080, 310598401, 607225278, 1426881987,
  1925078388, 2162078206, 2614888103, 3248222580,
  3835390401, 4022224774, 264347078, 604807628,
  770255983, 1249150122, 1555081692, 1996064986,
  2554220882, 2821834349, 2952996808, 3210313671,
  3336571891, 3584528711, 113926993, 338241895,
  666307205, 773529912, 1294757372, 1396182291,
  1695183700, 1986661051, 2177026350, 2456956037,
  2730485921, 2820302411, 3259730800, 3345764771,
  3516065817, 3600352804, 4094571909, 275423344,
  430227734, 506948616, 659060556, 883997877,
  958139571, 1322822218, 1537002063, 1747873779,
  1955562222, 2024104815, 2227730452, 2361852424,
  2428436474, 2756734187, 3204031479, 3329325298]

/-- The eight 32-bit working variables of the hash state. -/
structure SHAState where
  a : Nat
  b : Nat
  c : Nat
  d : Nat
  e : Nat
  f : Nat
  g : Nat
  h : Nat
deriving DecidableEq, Repr

/-- SHA-256 initial hash value. -/
def H0 : SHAState :=
  ⟨1779033703, 3144134277, 1013904242, 2773480762,
   1359893119, 2600822924, 528734635, 1541459225⟩

/-- Big-endian 8-byte encoding of the bit length. -/
def lenBytes (n : Nat) : List Nat :=
  (List.range 8).map (fun i => n / 2 ^ (8 * (7 - i)) % 256)

/-- SHA-256 message padding: `0x80`, zeros to 56 mod 64, 64-bit bit count. -/
def padMsg (msg : List Nat) : List Nat :=
  let L := msg.length
  let zeros := (120 - (L + 1) % 64) % 64
  msg ++ 128 :: (List.replicate zeros 0 ++ lenBytes (8 * L))

/-- Split a byte list into 64-byte blocks. -/
def chunks64 : List Nat → List (List Nat)
  | [] => []
  | a :: t => (a :: t).take 64 :: chunks64 ((a :: t).drop 64)
termination_by l => l.length
decreasing_by simp; omega

/-- Big-endian 32-bit word from the first four bytes. -/
def b4 (l : List Nat) : Nat :=
  l.getD 0 0 * 16777216 + l.getD 1 0 * 65536 + l.getD 2 0 * 256 + l.getD 3 0

/-- The sixteen message words of a 64-byte block. -/
def toWords (block : List Nat) : List Nat :=
  (List.range 16).map (fun i => b4 (block.drop (4 * i)))

/-- Extend the 16 message words to the 64-entry message schedule. -/
def sched (ws : List Nat) : List Nat :=
  (List.range 48).foldl
    (fun acc _ =>
      acc ++ [addw (addw (ssig1 (acc.getD (acc.length - 2) 0))
                         (acc.getD (acc.length - 7) 0))
                   (addw (ssig0 (acc.getD (acc.length - 15) 0))
                         (acc.getD (acc.length - 16) 0))])
    ws

/-- One SHA-256 compression round. -/
def round256 (st : SHAState) (ki wi : Nat) : SHAState :=
  let t1 := addw st.h (addw (bsig1 st.e) (addw (ch st.e st.f st.g) (addw ki wi)))
  let t2 := addw (bsig0 st.a) (maj st.a st.b st.c)
  ⟨addw t1 t2, st.a, st.b, st.c, addw st.d t1, st.e, st.f, st.g⟩

/-- Process one 64-byte block. -/
def compress (st : SHAState) (block : List Nat) : SHAState :=
  let ws := sched (toWords block)
  let r := (K256.zip ws).foldl (fun s kw => round256 s kw.1 kw.2) st
  ⟨addw st.a r.a, addw st.b r.b, addw st.c r.c, addw st.d r.d,
   addw st.e r.e, addw st.f r.f, addw st.g r.g, addw st.h r.h⟩

/-- SHA-256 of a byte list. -/
def sha256 (msg : List Nat) : SHAState := (chunks64 (padMsg msg)).foldl compress H0

/-- The sixteen lowercase hex digit characters. -/
def hexDigits : List Char := ("0123456789abcdef" : String).data

/-- Hex character of `n % 16`. -/
def hexChar (n : Nat) : Char := hexDigits.getD (n % 16) '0'

/-- Fixed-width big-endian hex rendering of a number. -/
def toHexFixed (w n : Nat) : List Char :=
  (List.range w).map (fun i => hexChar (n / 16 ^ (w - 1 - i)))

/-- `hexdigest()` of a SHA-256 state: 64 lowercase hex characters. -/
def sha256hexChars (msg : List Nat) : List Char :=
  let st := sha256 msg
  toHexFixed 8 st.a ++ toHexFixed 8 st.b ++ toHexFixed 8 st.c ++ toHexFixed 8 st.d ++
  toHexFixed 8 st.e ++ toHexFixed 8 st.f ++ toHexFixed 8 st.g ++ toHexFixed 8 st.h

/-- UTF-8 encoding of one code point (`str.encode("utf-8")`). -/
def utf8Char (c : Char) : List Nat :=
  let n := c.toNat
  if n < 128 then [n]
  else if n < 2048 then [192 + n / 64, 128 + n % 64]
  else if n < 65536 then [224 + n / 4096, 128 + n / 64 % 64, 128 + n % 64]
  else [240 + n / 262144, 128 + n / 4096 % 64, 128 + n / 64 % 64, 128 + n % 64]

/-- UTF-8 byte encoding of a string. -/
def utf8Bytes (s : String) : List Nat := (s.data.map utf8Char).flatten

/-- `stable_uid` (generate_ics.py lines 40–42):
`hashlib.sha256(text.encode("utf-8")).hexdigest()[:24]` with the `@lbc-ics`
namespace suffix. -/
def stable_uid (text : String) : String :=
  String.mk ((sha256hexChars (utf8Bytes text)).take 24) ++ "@lbc-ics"

/-! ### The time-range pattern of `parse_time_range` (lines 56–66)

`re.search(r"(\d\x7b1,2\x7d:\d\x7b2\x7d\s*(?:am|pm))\s*-\s*(\d\x7b1,2\x7d:\d\x7b2\x7d\s*(?:am|pm))", t, re.I)`
is embedded as a direct leftmost matcher.  The only regex choice points are the
greedy `\d` repetitions — and the one-digit alternative requires a `:` (resp.
whitespace) where the two-digit alternative places a digit, so the alternatives
are mutually exclusive and the matcher below is deterministic and complete. -/

/-- The `(?:am|pm)` alternation under `re.I`: two letter characters, any case.
Returns the matched characters and the remainder. -/
def matchAmPm : List Char → Option (List Char × List Char)
  | a :: m :: rest =>
    if (a == 'a' || a == 'A') && (m == 'm' || m == 'M') then some ([a, m], rest)
    else if (a == 'p' || a == 'P') && (m == 'm' || m == 'M') then some ([a, m], rest)
    else none
  | _ => none

/-- After the hour digits `pre`: expects `:` then two digits then `\s*` then
am/pm; returns the whole group's characters and the remainder. -/
def afterColon (pre : List Char) : List Char → Option (List Char × List Char)
  | c :: m1 :: m2 :: rest =>
    if c == ':' && (isDigitC m1 && isDigitC m2) then
      match matchAmPm (rest.dropWhile isSpaceB) with
      | some (ap, rest3) =>
        some (pre ++ c :: m1 :: m2 :: (rest.takeWhile isSpaceB ++ ap), rest3)
      | none => none
    else none
  | _ => none

/-- One time group `\d` one-or-two digits, `:`, two digits, `\s*`, am/pm. -/
def matchTimeGroup : List Char → Option (List Char × List Char)
  | d1 :: d2 :: rest =>
    if isDigitC d1 then
      if isDigitC d2 then afterColon [d1, d2] rest
      else afterColon [d1] (d2 :: rest)
    else none
  | _ => none

/-- Attempt the whole time-range pattern at the current position. -/
def matchTimeRangeAt (s : List Char) : Option (List Char × List Char) :=
  match matchTimeGroup s with
  | some (g1, r1) =>
    match r1.dropWhile isSpaceB with
    | c :: r2 =>
      if c == '-' then
        match matchTimeGroup (r2.dropWhile isSpaceB) with
        | some (g2, _) => some (g1, g2)
        | none => none
      else none
    | [] => none
  | none => none

/-- `re.search` for the time-range pattern: leftmost matching position. -/
def searchTimeRange : List Char → Option (List Char × List Char)
  | [] => none
  | c :: cs =>
    match matchTimeRangeAt (c :: cs) with
    | some r => some r
    | none => searchTimeRange cs

/-- `parse_time_range` (lines 56–66): strip, replace the en dash by `-`, then
search for the timed-range pattern.  `(None, None)` is modelled as `none`. -/
def parse_time_range (timesText : List Char) : Option (List Char × List Char) :=
  searchTimeRange ((strip timesText).map (fun c => if c = '–' then '-' else c))

/-! ### The day-month pattern of `iter_event_cards` (line 97)

`re.search(r"\b(\d\x7b1,2\x7d)\s+(Jan|Feb|Mar|Apr|May|Jun|Jul|Aug|Sep|Oct|Nov|Dec)\b", text)`
— note: no `re.I` flag, the month alternatives are matched case-sensitively. -/

/-- The twelve month-name alternatives, in the source's order. -/
def monthNames : List (List Char) :=
  [['J','a','n'], ['F','e','b'], ['M','a','r'], ['A','p','r'],
   ['M','a','y'], ['J','u','n'], ['J','u','l'], ['A','u','g'],
   ['S','e','p'], ['O','c','t'], ['N','o','v'], ['D','e','c']]

/-- Is `p` a literal prefix of `s`? -/
def startsWithChars : List Char → List Char → Bool
  | [], _ => true
  | _ :: _, [] => false
  | p :: ps, c :: cs => p == c && startsWithChars ps cs

/-- Case-sensitively match one month alternative followed by `\b`. -/
def matchMonth (s : List Char) : Option (List Char) :=
  (monthNames.find? (fun m => startsWithChars m s)).bind (fun m =>
    match s.drop 3 with
    | [] => some m
    | c :: _ => if isWordChar c then none else some m)

/-- After the day digits: `\s+` then a month then `\b`. -/
def afterDay (digits : List Char) (rest : List Char) : Option (List Char × List Char) :=
  match rest with
  | c :: _ =>
    if isSpaceB c then
      match matchMonth (rest.dropWhile isSpaceB) with
      | some m => some (digits, m)
      | none => none
    else none
  | [] => none

/-- Attempt the day-month pattern at the current position; `prevWord` says
whether the preceding character is a word character (for `\b`). -/
def matchDayMonAt (prevWord : Bool) (s : List Char) : Option (List Char × List Char) :=
  if prevWord then none
  else
    match s with
    | d1 :: d2 :: rest =>
      if isDigitC d1 then
        if isDigitC d2 then afterDay [d1, d2] rest
        else afterDay [d1] (d2 :: rest)
      else none
    | _ => none

/-- `re.search` for the day-month pattern (leftmost position wins). -/
def searchDayMon (prevWord : Bool) : List Char → Option (List Char × List Char)
  | [] => none
  | c :: cs =>
    match matchDayMonAt prevWord (c :: cs) with
    | some r => some r
    | none => searchDayMon (isWordChar c) cs

/-! ### Datetimes (`dateutil` + `zoneinfo`, modelled at the used interface) -/

/-- A timezone-aware wall-clock datetime, as produced by
`dtparser.parse(...).replace(tzinfo=ZoneInfo("Europe/London"))`.
Seconds and microseconds are always zero for the strings the script builds. -/
structure LDT where
  year : Nat
  month : Nat
  day : Nat
  hour : Nat
  minute : Nat
  tz : String
deriving DecidableEq, Repr

/-- Leap-year rule of the proleptic Gregorian calendar. -/
def isLeap (y : Nat) : Bool := y % 4 == 0 && (y % 100 != 0 || y % 400 == 0)

/-- Days in a month. -/
def daysInMonth (y m : Nat) : Nat :=
  if m = 2 then (if isLeap y then 29 else 28)
  else if m = 4 || m = 6 || m = 9 || m = 11 then 30
  else 31

/-- Month number of a (case-sensitive, regex-produced) month name. -/
def monthNum (m : List Char) : Option Nat :=
  ((monthNames.zip [1, 2, 3, 4, 5, 6, 7, 8, 9, 10, 11, 12]).find?
    (fun p => p.1 == m)).map (fun p => p.2)

/-- Modelled from dateutil: parse one matched time group
(`\d` one-or-two digits, `:`, two digits, spaces, am/pm in any case) into a
24-hour `(hour, minute)`; `none` models the `ValueError` dateutil raises on an
out-of-range hour or minute. -/
def parseTimeGroup (g : List Char) : Option (Nat × Nat) :=
  let hd := g.takeWhile isDigitC
  match g.dropWhile isDigitC with
  | ':' :: m1 :: m2 :: rest =>
    if isDigitC m1 && isDigitC m2 then
      let h := digitsToNat hd
      let mi := digitsToNat [m1, m2]
      if h ≤ 12 && mi ≤ 59 then
        match rest.dropWhile isSpaceB with
        | [a, m] =>
          if (a == 'a' || a == 'A') && (m == 'm' || m == 'M') then
            some (if h == 12 then 0 else h, mi)
          else if (a == 'p' || a == 'P') && (m == 'm' || m == 'M') then
            some (if h == 12 then 12 else h + 12, mi)
          else none
        | _ => none
      else none
    else none
  | _ => none

/-- Modelled from dateutil and zoneinfo:
`dtparser.parse(f"... day mon year time ...", dayfirst=True).replace(tzinfo=TZ)`
on the exact string shape built at lines 123–125.  The day/month/year
components arrive already split; `none` models the `ValueError` raised for an
invalid calendar day or time (which aborts the run — there is no handler). -/
def mkEventDT (day : Nat) (monName : List Char) (year : Nat) (timeG : List Char) :
    Option LDT :=
  match monthNum monName, parseTimeGroup timeG with
  | some mo, some (h, mi) =>
    if 1 ≤ day && day ≤ daysInMonth year mo then
      some ⟨year, mo, day, h, mi, "Europe/London"⟩
    else none
  | _, _ => none

/-- Modelled from the spec and dateutil: `dtparser.parse` applied to the
`data-end-time` attribute of the ancestor `w-dyn-item`, keeping only the year
(line 109–110).  The attribute carries an ISO-8601-style stamp
(`YYYY-MM-DD` or `YYYY-MM-DDThh:mm:ss`); anything else raises, which the
script catches and turns into the current-year fallback, so `none` here means
"unparseable". -/
def dtparseYear (s : String) : Option Nat :=
  match s.data with
  | y1 :: y2 :: y3 :: y4 :: '-' :: m1 :: m2 :: '-' :: d1 :: d2 :: rest =>
    if isDigitC y1 && isDigitC y2 && isDigitC y3 && isDigitC y4 &&
       isDigitC m1 && isDigitC m2 && isDigitC d1 && isDigitC d2 then
      let y := digitsToNat [y1, y2, y3, y4]
      let mo := digitsToNat [m1, m2]
      let d := digitsToNat [d1, d2]
      let timeOk :=
        match rest with
        | [] => true
        | 'T' :: h1 :: h2 :: ':' :: n1 :: n2 :: ':' :: s1 :: s2 :: [] =>
          isDigitC h1 && isDigitC h2 && isDigitC n1 && isDigitC n2 &&
          isDigitC s1 && isDigitC s2 &&
          digitsToNat [h1, h2] ≤ 23 && digitsToNat [n1, n2] ≤ 59 &&
          digitsToNat [s1, s2] ≤ 59
        | _ => false
      if 1 ≤ mo && mo ≤ 12 && 1 ≤ d && d ≤ daysInMonth y mo && timeOk then
        some y
      else none
    else none
  | _ => none

/-! ### `isoformat()` on Europe/London datetimes -/

/-- Fixed-width decimal rendering. -/
def padDec (w n : Nat) : List Char :=
  (List.range w).map (fun i => hexDigits.getD (n / 10 ^ (w - 1 - i) % 10) '0')

/-- Sakamoto's day-of-week algorithm, 0 = Sunday. -/
def dayOfWeek (y m d : Nat) : Nat :=
  let t := [0, 3, 2, 5, 0, 3, 5, 1, 4, 6, 2, 4]
  let y' := if m < 3 then y - 1 else y
  (y' + y' / 4 - y' / 100 + y' / 400 + t.getD (m - 1) 0 + d) % 7

/-- Day of the last Sunday of a 31-day month. -/
def lastSunday (y m : Nat) : Nat := 31 - dayOfWeek y m 31

/-- Lexicographic key on (month, day, hour, minute). -/
def wallKey (mo d h mi : Nat) : Nat := ((mo * 100 + d) * 100 + h) * 100 + mi

/-- Modelled from zoneinfo: is a Europe/London wall-clock datetime in British
Summer Time (fold = 0)?  BST runs from 02:00 wall clock on the last Sunday of
March up to (excluding) 02:00 wall clock on the last Sunday of October. -/
def isBST (dt : LDT) : Bool :=
  wallKey 3 (lastSunday dt.year 3) 2 0 ≤ wallKey dt.month dt.day dt.hour dt.minute &&
  wallKey dt.month dt.day dt.hour dt.minute < wallKey 10 (lastSunday dt.year 10) 2 0

/-- `datetime.isoformat()` of a Europe/London-aware datetime with zero
seconds: `YYYY-MM-DDTHH:MM:SS+HH:MM`. -/
def isoformat (dt : LDT) : String :=
  String.mk
    (padDec 4 dt.year ++ '-' :: padDec 2 dt.month ++ '-' :: padDec 2 dt.day ++
     'T' :: padDec 2 dt.hour ++ ':' :: padDec 2 dt.minute ++ ':' :: '0' :: '0' ::
     (if isBST dt then ['+', '0', '1', ':', '0', '0'] else ['+', '0', '0', ':', '0', '0']))

/-! ### Cards and the extraction pipeline -/

/-- Site base URL (line 23). -/
def BASE : String := "https://www.londonbuddhistcentre.com"

/-- `absolute_url` (lines 49–54). -/
def absolute_url (href : String) : String :=
  if startsWithChars "http://".data href.data || startsWithChars "https://".data href.data
  then href
  else if startsWithChars "/".data href.data then BASE ++ href
  else BASE ++ "/" ++ href

/-- What the CSS selectors of `iter_event_cards` extract from one
`div.w-layout-grid.whatson-events` container (BeautifulSoup is external):
`linkHref` is `get("href", "")` of `a[fs-list-element="item-link"]` (`none`
when the tag is absent), `titleText` the raw text of
`h4[fs-list-field="keyword"]` (`none` when absent), `text` the card's
`get_text(" ", strip=True)`, `parentEndTime` the `data-end-time` attribute of
the ancestor `div.w-dyn-item` when present, and `descText` the text of the
blurb paragraph when present. -/
structure Card where
  linkHref : Option String
  titleText : Option String
  text : String
  parentEndTime : Option String
  descText : Option String
deriving DecidableEq, Repr

/-- One yielded event dict (lines 131–137). -/
structure Item where
  title : String
  start : LDT
  stop : LDT
  url : String
  desc : String
deriving DecidableEq, Repr

/-- Lines 105–115: the year to resolve the card's date with — from the
`data-end-time` attribute of the ancestor `w-dyn-item` when present and
parseable, else the current year in Europe/London (`datetime.now(TZ).year`,
passed in as `londonYearNow`). -/
def resolveYear (londonYearNow : Nat) (card : Card) : Nat :=
  match card.parentEndTime with
  | some attr =>
    match dtparseYear attr with
    | some y => y
    | none => londonYearNow
  | none => londonYearNow

/-- The per-card body of `iter_event_cards` (lines 79–137).
`londonYearNow` is `datetime.now(ZoneInfo("Europe/London")).year` at the
moment of generation.  `ok none` models a `continue` (card skipped), `ok
(some _)` a `yield`, and `error ()` an uncaught dateutil `ValueError` from
lines 124–125, which aborts the whole run. -/
def processCard (londonYearNow : Nat) (card : Card) : Except Unit (Option Item) :=
  match card.linkHref with
  | none => .ok none
  | some hrefRaw =>
    match card.titleText with
    | none => .ok none
    | some titleRaw =>
      if (strip hrefRaw.data).isEmpty then .ok none
      else
        match searchDayMon false (pyNormalize card.text.data) with
        | none => .ok none
        | some (dayDigits, monName) =>
          match parse_time_range (pyNormalize card.text.data) with
          | none => .ok none
          | some (startStr, endStr) =>
            match mkEventDT (digitsToNat dayDigits) monName
                    (resolveYear londonYearNow card) startStr,
                  mkEventDT (digitsToNat dayDigits) monName
                    (resolveYear londonYearNow card) endStr with
            | some ds, some de =>
              .ok (some ⟨String.mk (pyNormalize titleRaw.data), ds, de,
                         absolute_url (String.mk (strip hrefRaw.data)),
                         card.descText.getD ""⟩)
            | _, _ => .error ()

/-- `iter_event_cards` over one page's cards, fully consumed (the generator is
drained by `build_calendar`'s loop; an uncaught parse error anywhere aborts). -/
def pageEvents (londonYearNow : Nat) : List Card → Except Unit (List Item)
  | [] => .ok []
  | c :: cs =>
    match processCard londonYearNow c with
    | .error e => .error e
    | .ok r =>
      match pageEvents londonYearNow cs with
      | .error e => .error e
      | .ok rest =>
        match r with
        | some i => .ok (i :: rest)
        | none => .ok rest

/-! ### `build_calendar` and `main` -/

/-- The dedup key (line 151): `(item["title"], item["start"].isoformat(), item["url"])`. -/
def dedupKey (i : Item) : String × String × String := (i.title, isoformat i.start, i.url)

/-- One serialized VEVENT (lines 156–165). -/
structure VEvent where
  uid : String
  summary : String
  dtstart : LDT
  dtend : LDT
  url : String
  description : Option String
deriving DecidableEq, Repr

/-- Lines 156–163: build the `Event`, its uid from `stable_uid` over
`url + "|" + start.isoformat()`; `description` only when the blurb is
non-empty. -/
def mkVEvent (i : Item) : VEvent :=
  ⟨stable_uid (i.url ++ "|" ++ isoformat i.start), i.title, i.start, i.stop, i.url,
   if i.desc = "" then none else some i.desc⟩

/-- The loop body at lines 151–165: skip when the key was already seen,
otherwise record the key and append the event. -/
def addItem (st : List (String × String × String) × List VEvent) (i : Item) :
    List (String × String × String) × List VEvent :=
  if dedupKey i ∈ st.1 then st else (dedupKey i :: st.1, st.2 ++ [mkVEvent i])

/-- The outcome of `fetch(page)` for one configured category page, composed
with BeautifulSoup's card selection (both external): `failure` models a raised
`requests` error (non-2xx status via `raise_for_status`, timeout or connection
error), `success cards` the cards found in the returned HTML. -/
inductive PageFetch where
  | failure : PageFetch
  | success : List Card → PageFetch
deriving DecidableEq, Repr

/-- The page loop of `build_calendar` (lines 146–165) threading the `seen` set
and the accumulated events; a fetch failure or parse error aborts. -/
def feedPages (londonYearNow : Nat) :
    List PageFetch → List (String × String × String) × List VEvent →
    Except Unit (List (String × String × String) × List VEvent)
  | [], st => .ok st
  | .failure :: _, _ => .error ()
  | .success cards :: ps, st =>
    match pageEvents londonYearNow cards with
    | .error e => .error e
    | .ok items => feedPages londonYearNow ps (items.foldl addItem st)

/-- The assembled `Calendar` object with its fixed metadata (lines 140–144). -/
structure Calendar where
  prodid : String
  version : String
  calname : String
  caltz : String
  events : List VEvent
deriving DecidableEq, Repr

/-- `build_calendar` (lines 139–167). -/
def build_calendar (londonYearNow : Nat) (pages : List PageFetch) :
    Except Unit Calendar :=
  match feedPages londonYearNow pages ([], []) with
  | .error e => .error e
  | .ok st =>
    .ok ⟨"-//London Buddhist Centre//Auto ICS//EN", "2.0",
         "London Buddhist Centre", "Europe/London", st.2⟩

/-- `main` (lines 169–176): `build_calendar` runs before anything is written,
so an uncaught exception leaves the output file unwritten (`none`); on success
the calendar is serialized to `docs/lbc.ics` (`some cal`). -/
def mainRun (londonYearNow : Nat) (pages : List PageFetch) : Option Calendar :=
  match build_calendar londonYearNow pages with
  | .error _ => none
  | .ok cal => some cal

/-! ### Spec-side definition for the dedup refinement (claim C3) -/

/-- Modelled from the spec: "deduplicated by (title, start, url) composite key
— first occurrence wins, later duplicates silently dropped".  The first item
with a given key is kept; every later item with the same key is removed. -/
def keepFirsts : List Item → List Item
  | [] => []
  | x :: xs => x :: keepFirsts (xs.filter (fun y => decide (dedupKey y ≠ dedupKey x)))
termination_by l => l.length
decreasing_by
  simp only [List.length_cons]
  exact Nat.lt_succ_of_le (List.length_filter_le _ _)

/-! ### Auxiliary notions used only in theorem statements -/

/-- Chronological key of a wall-clock datetime (lexicographic on the fields),
used to state `start ≤ end` comparisons. -/
def ldtKey (d : LDT) : Nat :=
  (((d.year * 100 + d.month) * 100 + d.day) * 100 + d.hour) * 100 + d.minute

/-- Two characters are equal up to ASCII letter case: either identical, or the
same letter with one of the two capitalized. -/
def caseEqChar (a b : Char) : Bool :=
  a == b ||
  (65 ≤ a.toNat && a.toNat ≤ 90 && b.toNat == a.toNat + 32) ||
  (65 ≤ b.toNat && b.toNat ≤ 90 && a.toNat == b.toNat + 32)

/-- Pointwise case-equivalence of two character lists: the same text up to the
letter case of individual characters. -/
def caseEqs : List Char → List Char → Bool
  | [], [] => true
  | a :: as, b :: bs => caseEqChar a b && caseEqs as bs
  | _, _ => false

/-- Relation between two matcher results: both fail, or both succeed with
case-equivalent remainders (the matched groups themselves are irrelevant for
whether the pattern matches). -/
def timeMatchRel : Option (List Char × List Char) → Option (List Char × List Char) → Prop
  | none, none => True
  | some (_, r), some (_, r') => caseEqs r r' = true
  | _, _ => False

/-! ## Helper lemmas -/

theorem char_eq_iff (a b : Char) : a = b ↔ a.toNat = b.toNat :=
  ⟨fun h => by rw [h], fun h => Char.ext (UInt32.ext h)⟩

theorem char_le_iff (a b : Char) : (a ≤ b) ↔ a.toNat ≤ b.toNat := by
  rw [Char.le_def, UInt32.le_def, BitVec.le_def]
  exact Iff.rfl

theorem mkEventDT_fields {d : Nat} {m : List Char} {y : Nat} {g : List Char} {ldt : LDT}
    (h : mkEventDT d m y g = some ldt) :
    ldt.year = y ∧ ldt.day = d ∧ ldt.tz = "Europe/London" ∧ monthNum m = some ldt.month := by
  unfold mkEventDT at h
  split at h
  · split at h
    · injection h with h
      subst h
      rename_i mo hd hm hmn htg
      exact ⟨rfl, rfl, rfl, hm⟩
    · exact absurd h (by simp)
  · exact absurd h (by simp)

/-- Everything an emitted event guarantees about its datetimes: both came from
`mkEventDT` at the same resolved day, month and year, and emission required a
timed-range match on the card text. -/
theorem processCard_emit {y : Nat} {c : Card} {i : Item}
    (h : processCard y c = .ok (some i)) :
    i.start.year = resolveYear y c ∧ i.stop.year = resolveYear y c ∧
    i.start.month = i.stop.month ∧ i.start.day = i.stop.day ∧
    i.start.tz = "Europe/London" ∧ i.stop.tz = "Europe/London" ∧
    (parse_time_range (pyNormalize c.text.data)).isSome = true := by
  unfold processCard at h
  split at h
  · exact absurd h (by simp)
  · split at h
    · exact absurd h (by simp)
    · split at h
      · exact absurd h (by simp)
      · split at h
        · exact absurd h (by simp)
        · split at h
          · exact absurd h (by simp)
          · rename_i startStr endStr hpt
            split at h
            · rename_i ds de hds hde
              injection h with h
              injection h with h
              subst h
              obtain ⟨hy1, hd1, hz1, hm1⟩ := mkEventDT_fields hds
              obtain ⟨hy2, hd2, hz2, hm2⟩ := mkEventDT_fields hde
              refine ⟨hy1, hy2, ?_, hd1.trans hd2.symm, hz1, hz2, by rw [hpt]; rfl⟩
              exact Option.some.inj (hm1.symm.trans hm2)
            · exact absurd h (by simp)

/-! ## Claims -/

/-- C1: a card whose text is "Fri 2 Jan | 8:00 am - 9:00 am", processed with
resolved year 2025, yields an event whose start is 2025-01-02T08:00 and whose
end is 2025-01-02T09:00, both wall-clock datetimes in the configured
Europe/London zone. -/
theorem C1_timed_card_normalization :
    processCard 2025
      ⟨some "/whats-on/morning-meditation", some "Morning Meditation",
       "Fri 2 Jan | 8:00 am - 9:00 am", none, none⟩ =
    .ok (some ⟨"Morning Meditation",
               ⟨2025, 1, 2, 8, 0, "Europe/London"⟩,
               ⟨2025, 1, 2, 9, 0, "Europe/London"⟩,
               "https://www.londonbuddhistcentre.com/whats-on/morning-meditation", ""⟩) := by
  rfl

/-- C4 counterexample: a card whose parsed start (9:00 am) is after its parsed
end (8:00 am) is NOT rejected — the pipeline emits the record as-is, with end
chronologically before start, contradicting the claimed `start ≤ end`
invariant. -/
theorem C4_cex_reversed_range_emitted :
    processCard 2025
      ⟨some "/events/reversed", some "Reversed", "Fri 2 Jan | 9:00 am - 8:00 am",
       none, none⟩ =
      .ok (some ⟨"Reversed",
                 ⟨2025, 1, 2, 9, 0, "Europe/London"⟩,
                 ⟨2025, 1, 2, 8, 0, "Europe/London"⟩,
                 "https://www.londonbuddhistcentre.com/events/reversed", ""⟩) ∧
    ldtKey ⟨2025, 1, 2, 8, 0, "Europe/London"⟩ <
      ldtKey ⟨2025, 1, 2, 9, 0, "Europe/London"⟩ := by
  exact ⟨rfl, by decide⟩

/-- C4 (amended): every emitted EventRecord has start and end on the same
resolved calendar date and in the same zone, but no `start ≤ end` check is
performed — a card whose parsed start time is after its parsed end time is
emitted unchanged rather than rejected or skipped. -/
theorem C4_amended_same_date_no_order_check :
    ∀ (y : Nat) (c : Card) (i : Item), processCard y c = .ok (some i) →
      i.start.year = i.stop.year ∧ i.start.month = i.stop.month ∧
      i.start.day = i.stop.day ∧ i.start.tz = i.stop.tz := by
  intro y c i h
  obtain ⟨h1, h2, h3, h4, h5, h6, _⟩ := processCard_emit h
  exact ⟨h1.trans h2.symm, h3, h4, h5.trans h6.symm⟩

/-- C4 witness: the amended theorem applied to a concrete emitted card. -/
theorem C4_witness :
    (⟨2025, 1, 2, 9, 0, "Europe/London"⟩ : LDT).day =
      (⟨2025, 1, 2, 8, 0, "Europe/London"⟩ : LDT).day :=
  (C4_amended_same_date_no_order_check 2025
    ⟨some "/events/reversed", some "Reversed", "Fri 2 Jan | 9:00 am - 8:00 am",
     none, none⟩
    ⟨"Reversed", ⟨2025, 1, 2, 9, 0, "Europe/London"⟩,
     ⟨2025, 1, 2, 8, 0, "Europe/London"⟩,
     "https://www.londonbuddhistcentre.com/events/reversed", ""⟩ (by rfl)).2.2.1

/-- C5 counterexample: the all-day card text "Sat 3 Jan - Sat 24 Jan" (no time
component) produces NO record at all — the card is skipped, not turned into
an all-day event spanning 2025-01-03 to 2025-01-24. -/
theorem C5_cex_all_day_card_skipped :
    processCard 2025
      ⟨some "/events/winter-retreat", some "Winter Retreat",
       "Sat 3 Jan - Sat 24 Jan", none, none⟩ = .ok none := by
  rfl

/-- C5 (amended): the pipeline never emits all-day records — a card whose text
contains no timed range (such as the all-day range "Sat 3 Jan - Sat 24 Jan")
is skipped, and every emitted record required a timed-range match. -/
theorem C5_amended_no_all_day_records :
    ∀ (y : Nat) (c : Card) (i : Item), processCard y c = .ok (some i) →
      (parse_time_range (pyNormalize c.text.data)).isSome = true := by
  intro y c i h
  exact (processCard_emit h).2.2.2.2.2.2

/-- C5 witness: the amended theorem applied to a concrete emitted card. -/
theorem C5_witness :
    (parse_time_range (pyNormalize ("Tue 7 Oct | 6:15 pm - 7:30 pm" : String).data)).isSome
      = true :=
  C5_amended_no_all_day_records 2025
    ⟨some "/events/yoga", some "Yoga", "Tue 7 Oct | 6:15 pm - 7:30 pm", none, none⟩
    ⟨"Yoga", ⟨2025, 10, 7, 18, 15, "Europe/London"⟩,
     ⟨2025, 10, 7, 19, 30, "Europe/London"⟩,
     "https://www.londonbuddhistcentre.com/events/yoga", ""⟩ (by rfl)

/-- C6 counterexample: a card with a perfectly valid date match but no title
element yields NO event — it is dropped, not emitted with a placeholder
title. -/
theorem C6_cex_untitled_card_dropped :
    processCard 2025
      ⟨some "/events/untitled", none, "Fri 2 Jan | 8:00 am - 9:00 am",
       none, none⟩ = .ok none := by
  rfl

/-- C6 (amended): a card missing its title element is skipped entirely (no
event is emitted); no placeholder title is substituted. -/
theorem C6_amended_untitled_card_skipped :
    ∀ (y : Nat) (c : Card), c.titleText = none → processCard y c = .ok none := by
  intro y c h
  rcases c with ⟨l, t, tx, p, d⟩
  cases h
  cases l <;> rfl

/-- C6 witness: the amended theorem applied to a concrete card. -/
theorem C6_witness :
    processCard 2024
      ⟨some "/events/untitled-2", none, "Mon 6 Jan | 7:00 pm - 9:00 pm",
       none, none⟩ = .ok none :=
  C6_amended_untitled_card_skipped 2024
    ⟨some "/events/untitled-2", none, "Mon 6 Jan | 7:00 pm - 9:00 pm", none, none⟩ rfl

/-- C8: the year used to resolve a card's date is taken from the embedded
`data-end-time` attribute of the ancestor element when present and parseable,
and otherwise is the current year in the Europe/London zone at the moment of
generation (the `londonYearNow` argument, `datetime.now(TZ).year` with
`TZ = ZoneInfo("Europe/London")`, not UTC). -/
theorem C8_year_resolution :
    ∀ (y : Nat) (c : Card) (i : Item), processCard y c = .ok (some i) →
      (∀ attr yr, c.parentEndTime = some attr → dtparseYear attr = some yr →
        i.start.year = yr) ∧
      (∀ attr, c.parentEndTime = some attr → dtparseYear attr = none →
        i.start.year = y) ∧
      (c.parentEndTime = none → i.start.year = y) := by
  intro y c i h
  have hy := (processCard_emit h).1
  refine ⟨?_, ?_, ?_⟩
  · intro attr yr h1 h2
    rw [hy]
    simp [resolveYear, h1, h2]
  · intro attr h1 h2
    rw [hy]
    simp [resolveYear, h1, h2]
  · intro h1
    rw [hy]
    simp [resolveYear, h1]

/-- C8 witness: a concrete card with a parseable `data-end-time` attribute
resolves to that attribute's year (2026) rather than the current year
(2025). -/
theorem C8_witness :
    (⟨2026, 1, 2, 8, 0, "Europe/London"⟩ : LDT).year = 2026 :=
  (C8_year_resolution 2025
    ⟨some "/events/new-year", some "New Year Retreat",
     "Fri 2 Jan | 8:00 am - 9:00 am", some "2026-01-24T21:00:00", none⟩
    ⟨"New Year Retreat", ⟨2026, 1, 2, 8, 0, "Europe/London"⟩,
     ⟨2026, 1, 2, 9, 0, "Europe/London"⟩,
     "https://www.londonbuddhistcentre.com/events/new-year", ""⟩ (by rfl)).1
    "2026-01-24T21:00:00" 2026 rfl (by rfl)

/-- The 64-character hex digest has every character in `hexDigits`. -/
theorem sha256hexChars_spec (m : List Nat) :
    (sha256hexChars m).length = 64 ∧ ∀ c ∈ sha256hexChars m, c ∈ hexDigits := by
  have hmem : ∀ (w n : Nat), ∀ c ∈ toHexFixed w n, c ∈ hexDigits := by
    intro w n c hc
    obtain ⟨j, _, hj⟩ := List.mem_map.mp hc
    have hball : ∀ m, m < 16 → hexDigits.getD m '0' ∈ hexDigits := by decide
    exact hj ▸ hball _ (Nat.mod_lt _ (by norm_num))
  constructor
  · simp [sha256hexChars, toHexFixed]
  · intro c hc
    unfold sha256hexChars at hc
    simp only [List.mem_append] at hc
    rcases hc with ((((((h | h) | h) | h) | h) | h) | h) | h <;> exact hmem _ _ _ h

/-- C2: the event identifier is a pure, deterministic function of the url and
the start instant — equal inputs give the identical identifier — and it is
always a 24-character lowercase hex digest followed by the `@lbc-ics`
namespace suffix. -/
theorem C2_uid_deterministic_fixed_width :
    (∀ u s u' s' : String, u = u' → s = s' →
      stable_uid (u ++ "|" ++ s) = stable_uid (u' ++ "|" ++ s')) ∧
    (∀ t : String, ∃ hs : List Char,
      stable_uid t = String.mk hs ++ "@lbc-ics" ∧ hs.length = 24 ∧
      ∀ c ∈ hs, c ∈ hexDigits) := by
  constructor
  · intro u s u' s' hu hs
    rw [hu, hs]
  · intro t
    refine ⟨(sha256hexChars (utf8Bytes t)).take 24, rfl, ?_, ?_⟩
    · rw [List.length_take, (sha256hexChars_spec (utf8Bytes t)).1]
      rfl
    · intro c hc
      exact (sha256hexChars_spec (utf8Bytes t)).2 c (List.take_subset _ _ hc)

/-- C2 witness: the theorem applied at a concrete (url, start-instant) pair. -/
theorem C2_witness :
    stable_uid ("https://www.londonbuddhistcentre.com/e" ++ "|" ++ "2025-01-02T08:00:00+00:00") =
      stable_uid ("https://www.londonbuddhistcentre.com/e" ++ "|" ++ "2025-01-02T08:00:00+00:00") ∧
    ∃ hs : List Char,
      stable_uid "https://www.londonbuddhistcentre.com/e|2025-01-02T08:00:00+00:00" =
        String.mk hs ++ "@lbc-ics" ∧ hs.length = 24 ∧ ∀ c ∈ hs, c ∈ hexDigits :=
  ⟨C2_uid_deterministic_fixed_width.1 _ _ _ _ rfl rfl,
   C2_uid_deterministic_fixed_width.2 _⟩

theorem keepFirsts_cons (x : Item) (xs : List Item) :
    keepFirsts (x :: xs) =
      x :: keepFirsts (xs.filter (fun y => decide (dedupKey y ≠ dedupKey x))) := by
  rw [keepFirsts]

/-- The seen-set fold of `build_calendar` computes exactly "first occurrence
of each key wins" over the items not already excluded by `seen`. -/
theorem foldl_addItem_snd (items : List Item) :
    ∀ (seen : List (String × String × String)) (acc : List VEvent),
      (items.foldl addItem (seen, acc)).2 =
        acc ++ (keepFirsts (items.filter
          (fun i => decide (dedupKey i ∉ seen)))).map mkVEvent := by
  induction items with
  | nil => intro seen acc; simp [keepFirsts]
  | cons x xs ih =>
    intro seen acc
    by_cases hx : dedupKey x ∈ seen
    · have hstep : addItem (seen, acc) x = (seen, acc) := by simp [addItem, hx]
      have hfc : (x :: xs).filter (fun i => decide (dedupKey i ∉ seen)) =
          xs.filter (fun i => decide (dedupKey i ∉ seen)) := by simp [hx]
      rw [List.foldl_cons, hstep, ih, hfc]
    · have hstep : addItem (seen, acc) x =
          (dedupKey x :: seen, acc ++ [mkVEvent x]) := by simp [addItem, hx]
      have hfc : (x :: xs).filter (fun i => decide (dedupKey i ∉ seen)) =
          x :: xs.filter (fun i => decide (dedupKey i ∉ seen)) := by simp [hx]
      have hpt : xs.filter (fun i => decide (dedupKey i ∉ dedupKey x :: seen)) =
          (xs.filter (fun i => decide (dedupKey i ∉ seen))).filter
            (fun y => decide (dedupKey y ≠ dedupKey x)) := by
        rw [List.filter_filter]
        apply List.filter_congr
        intro a _
        by_cases h1 : dedupKey a = dedupKey x <;> by_cases h2 : dedupKey a ∈ seen <;>
          simp [h1, h2]
      rw [List.foldl_cons, hstep, ih, hfc, keepFirsts_cons, ← hpt]
      simp

theorem feedPages_ok {y : Nat} {pcs : List (List Card)} {its : List (List Item)}
    (hf : List.Forall₂ (fun cs is => pageEvents y cs = .ok is) pcs its) :
    ∀ st, feedPages y (pcs.map PageFetch.success) st =
      .ok (its.flatten.foldl addItem st) := by
  induction hf with
  | nil => intro st; rfl
  | cons h _ ih =>
    intro st
    simp only [List.map_cons, feedPages, h, List.flatten_cons, List.foldl_append]
    exact ih _

/-- C3: the feed is deduplicated by the (title, start, url) composite key
across all source pages — against the spec-side `keepFirsts` (first event
with a given key kept, every later event with the same key silently dropped),
the fold of `build_calendar` produces exactly the kept items' events. -/
theorem C3_dedup_first_occurrence_wins :
    ∀ (y : Nat) (pcs : List (List Card)) (its : List (List Item)),
      List.Forall₂ (fun cs is => pageEvents y cs = .ok is) pcs its →
      build_calendar y (pcs.map PageFetch.success) =
        .ok ⟨"-//London Buddhist Centre//Auto ICS//EN", "2.0",
             "London Buddhist Centre", "Europe/London",
             (keepFirsts its.flatten).map mkVEvent⟩ := by
  intro y pcs its hf
  unfold build_calendar
  rw [feedPages_ok hf ([], [])]
  have h2 := foldl_addItem_snd its.flatten [] []
  have h3 : its.flatten.filter
      (fun i => decide (dedupKey i ∉ ([] : List (String × String × String)))) =
      its.flatten := by
    apply List.filter_eq_self.mpr
    intro a _
    simp
  rw [h3, List.nil_append] at h2
  show Except.ok
      (⟨"-//London Buddhist Centre//Auto ICS//EN", "2.0", "London Buddhist Centre",
        "Europe/London", (its.flatten.foldl addItem ([], [])).2⟩ : Calendar) = _
  rw [h2]

/-- C3 witness: the identical card text appearing on two different source
pages yields exactly one feed entry. -/
theorem C3_witness :
    build_calendar 2025
      ([[⟨some "/whats-on/dharma-night", some "Dharma Night",
          "Wed 5 Feb | 7:15 pm - 9:30 pm", none, none⟩],
        [⟨some "/whats-on/dharma-night", some "Dharma Night",
          "Wed 5 Feb | 7:15 pm - 9:30 pm", none, none⟩]].map PageFetch.success) =
      .ok ⟨"-//London Buddhist Centre//Auto ICS//EN", "2.0", "London Buddhist Centre",
           "Europe/London",
           [mkVEvent ⟨"Dharma Night", ⟨2025, 2, 5, 19, 15, "Europe/London"⟩,
                      ⟨2025, 2, 5, 21, 30, "Europe/London"⟩,
                      "https://www.londonbuddhistcentre.com/whats-on/dharma-night", ""⟩]⟩ := by
  have h := C3_dedup_first_occurrence_wins 2025
    [[⟨some "/whats-on/dharma-night", some "Dharma Night",
       "Wed 5 Feb | 7:15 pm - 9:30 pm", none, none⟩],
     [⟨some "/whats-on/dharma-night", some "Dharma Night",
       "Wed 5 Feb | 7:15 pm - 9:30 pm", none, none⟩]]
    [[⟨"Dharma Night", ⟨2025, 2, 5, 19, 15, "Europe/London"⟩,
       ⟨2025, 2, 5, 21, 30, "Europe/London"⟩,
       "https://www.londonbuddhistcentre.com/whats-on/dharma-night", ""⟩],
     [⟨"Dharma Night", ⟨2025, 2, 5, 19, 15, "Europe/London"⟩,
       ⟨2025, 2, 5, 21, 30, "Europe/London"⟩,
       "https://www.londonbuddhistcentre.com/whats-on/dharma-night", ""⟩]]
    (List.Forall₂.cons (by rfl) (List.Forall₂.cons (by rfl) List.Forall₂.nil))
  rw [h]
  simp [keepFirsts]

/-- A fetch failure anywhere among the pages makes the page loop abort. -/
theorem feedPages_abort {y : Nat} {pages : List PageFetch}
    (hmem : PageFetch.failure ∈ pages) :
    ∀ st, feedPages y pages st = .error () := by
  induction pages with
  | nil => exact absurd hmem (by simp)
  | cons p ps ih =>
    intro st
    cases p with
    | failure => rfl
    | success cs =>
      have hmem' : PageFetch.failure ∈ ps := by
        rcases List.mem_cons.mp hmem with h | h
        · exact absurd h (by simp)
        · exact h
      rcases hpe : pageEvents y cs with e | items
      · simp [feedPages, hpe]
      · simp [feedPages, hpe, ih hmem']

/-- When every page fetch succeeds and yields no events, the page loop
returns its state unchanged. -/
theorem feedPages_empty {y : Nat} {pages : List PageFetch}
    (h : ∀ p ∈ pages, ∃ cs, p = PageFetch.success cs ∧ pageEvents y cs = .ok []) :
    ∀ st, feedPages y pages st = .ok st := by
  induction pages with
  | nil => intro st; rfl
  | cons p ps ih =>
    intro st
    obtain ⟨cs, rfl, hpe⟩ := h p (List.mem_cons_self p ps)
    have := ih (fun q hq => h q (List.mem_cons_of_mem _ hq))
    simp [feedPages, hpe, this]

/-- C9: if any fetch of a configured source page fails, the run aborts and
the output file is left unwritten; a run in which every fetch succeeds but
zero events are found still writes a well-formed empty feed (full calendar
metadata, zero entries). -/
theorem C9_fetch_failure_fatal_empty_feed_ok :
    (∀ (y : Nat) (pages : List PageFetch), PageFetch.failure ∈ pages →
      mainRun y pages = none) ∧
    (∀ (y : Nat) (pages : List PageFetch),
      (∀ p ∈ pages, ∃ cs, p = PageFetch.success cs ∧ pageEvents y cs = .ok []) →
      mainRun y pages =
        some ⟨"-//London Buddhist Centre//Auto ICS//EN", "2.0",
              "London Buddhist Centre", "Europe/London", []⟩) := by
  constructor
  · intro y pages hmem
    unfold mainRun build_calendar
    rw [feedPages_abort hmem ([], [])]
  · intro y pages h
    unfold mainRun build_calendar
    rw [feedPages_empty h ([], [])]

/-- C9 witness: one failing page aborts with no output; one succeeding page
with no cards still produces a metadata-only empty feed. -/
theorem C9_witness :
    mainRun 2025 [PageFetch.failure] = none ∧
    mainRun 2025 [PageFetch.success []] =
      some ⟨"-//London Buddhist Centre//Auto ICS//EN", "2.0",
            "London Buddhist Centre", "Europe/London", []⟩ :=
  ⟨C9_fetch_failure_fatal_empty_feed_ok.1 2025 [PageFetch.failure] (by simp),
   C9_fetch_failure_fatal_empty_feed_ok.2 2025 [PageFetch.success []] (by
    intro p hp
    rcases List.mem_cons.mp hp with h | h
    · exact ⟨[], h, rfl⟩
    · exact absurd h (by simp))⟩

/-- C10: the identifier depends only on the event's url and start instant,
never on title or description — any two events sharing url and start get
equal uids while (when their titles differ) their dedup keys differ, so the
emitted feed can contain two distinct entries carrying the same uid, as the
concrete two-card page shows. -/
theorem C10_uid_ignores_title :
    (∀ i j : Item, i.url = j.url → i.start = j.start →
      (mkVEvent i).uid = (mkVEvent j).uid) ∧
    (∀ i j : Item, i.title ≠ j.title → dedupKey i ≠ dedupKey j) ∧
    (build_calendar 2025
        [PageFetch.success
          [⟨some "/whats-on/thursday", some "Meditation AM",
            "Thu 9 Jan | 8:00 am - 9:00 am", none, none⟩,
           ⟨some "/whats-on/thursday", some "Breathwork",
            "Thu 9 Jan | 8:00 am - 9:00 am", none, none⟩]] =
      .ok ⟨"-//London Buddhist Centre//Auto ICS//EN", "2.0",
           "London Buddhist Centre", "Europe/London",
           [mkVEvent ⟨"Meditation AM", ⟨2025, 1, 9, 8, 0, "Europe/London"⟩,
                      ⟨2025, 1, 9, 9, 0, "Europe/London"⟩,
                      "https://www.londonbuddhistcentre.com/whats-on/thursday", ""⟩,
            mkVEvent ⟨"Breathwork", ⟨2025, 1, 9, 8, 0, "Europe/London"⟩,
                      ⟨2025, 1, 9, 9, 0, "Europe/London"⟩,
                      "https://www.londonbuddhistcentre.com/whats-on/thursday", ""⟩]⟩) ∧
    (mkVEvent ⟨"Meditation AM", ⟨2025, 1, 9, 8, 0, "Europe/London"⟩,
               ⟨2025, 1, 9, 9, 0, "Europe/London"⟩,
               "https://www.londonbuddhistcentre.com/whats-on/thursday", ""⟩).uid =
      (mkVEvent ⟨"Breathwork", ⟨2025, 1, 9, 8, 0, "Europe/London"⟩,
                 ⟨2025, 1, 9, 9, 0, "Europe/London"⟩,
                 "https://www.londonbuddhistcentre.com/whats-on/thursday", ""⟩).uid ∧
    (mkVEvent ⟨"Meditation AM", ⟨2025, 1, 9, 8, 0, "Europe/London"⟩,
               ⟨2025, 1, 9, 9, 0, "Europe/London"⟩,
               "https://www.londonbuddhistcentre.com/whats-on/thursday", ""⟩).summary ≠
      (mkVEvent ⟨"Breathwork", ⟨2025, 1, 9, 8, 0, "Europe/London"⟩,
                 ⟨2025, 1, 9, 9, 0, "Europe/London"⟩,
                 "https://www.londonbuddhistcentre.com/whats-on/thursday", ""⟩).summary := by
  refine ⟨?_, ?_, ?_, rfl, ?_⟩
  · intro i j hu hs
    show stable_uid (i.url ++ "|" ++ isoformat i.start) =
      stable_uid (j.url ++ "|" ++ isoformat j.start)
    rw [hu, hs]
  · intro i j ht h
    exact ht (congrArg Prod.fst h)
  · rfl
  · intro h
    exact absurd h (by decide)

/-- C10 witness: the general parts applied at the two concrete items. -/
theorem C10_witness :
    (mkVEvent ⟨"Morning Sit", ⟨2025, 3, 3, 7, 30, "Europe/London"⟩,
               ⟨2025, 3, 3, 8, 30, "Europe/London"⟩,
               "https://www.londonbuddhistcentre.com/whats-on/sit", ""⟩).uid =
      (mkVEvent ⟨"Metta Hour", ⟨2025, 3, 3, 7, 30, "Europe/London"⟩,
                 ⟨2025, 3, 3, 9, 0, "Europe/London"⟩,
                 "https://www.londonbuddhistcentre.com/whats-on/sit", ""⟩).uid ∧
    dedupKey ⟨"Morning Sit", ⟨2025, 3, 3, 7, 30, "Europe/London"⟩,
              ⟨2025, 3, 3, 8, 30, "Europe/London"⟩,
              "https://www.londonbuddhistcentre.com/whats-on/sit", ""⟩ ≠
      dedupKey ⟨"Metta Hour", ⟨2025, 3, 3, 7, 30, "Europe/London"⟩,
                ⟨2025, 3, 3, 9, 0, "Europe/London"⟩,
                "https://www.londonbuddhistcentre.com/whats-on/sit", ""⟩ :=
  ⟨C10_uid_ignores_title.1 _ _ rfl rfl,
   C10_uid_ignores_title.2.1 _ _ (by decide)⟩

theorem caseEqChar_cases {a b : Char} (h : caseEqChar a b = true) :
    a = b ∨ (65 ≤ a.toNat ∧ a.toNat ≤ 90 ∧ b.toNat = a.toNat + 32) ∨
    (65 ≤ b.toNat ∧ b.toNat ≤ 90 ∧ a.toNat = b.toNat + 32) := by
  unfold caseEqChar at h
  simp only [Bool.or_eq_true, Bool.and_eq_true, beq_iff_eq, decide_eq_true_eq] at h
  tauto

theorem isDigitC_iff (c : Char) : isDigitC c = true ↔ 48 ≤ c.toNat ∧ c.toNat ≤ 57 := by
  unfold isDigitC
  rw [Bool.and_eq_true, decide_eq_true_eq, decide_eq_true_eq, char_le_iff, char_le_iff,
      show ('0' : Char).toNat = 48 by decide, show ('9' : Char).toNat = 57 by decide]

theorem isSpaceB_iff (c : Char) : isSpaceB c = true ↔
    (c.toNat = 32 ∨ c.toNat = 9 ∨ c.toNat = 10 ∨ c.toNat = 13 ∨
     c.toNat = 11 ∨ c.toNat = 12) := by
  unfold isSpaceB
  simp only [Bool.or_eq_true, decide_eq_true_eq, char_eq_iff,
    show (' ' : Char).toNat = 32 by decide, show ('\t' : Char).toNat = 9 by decide,
    show ('\n' : Char).toNat = 10 by decide, show ('\r' : Char).toNat = 13 by decide,
    show ('\x0b' : Char).toNat = 11 by decide, show ('\x0c' : Char).toNat = 12 by decide]
  tauto

theorem caseEqChar_isDigit {a b : Char} (h : caseEqChar a b = true) :
    isDigitC a = isDigitC b := by
  rcases caseEqChar_cases h with rfl | ⟨h1, h2, h3⟩ | ⟨h1, h2, h3⟩
  · rfl
  · rw [Bool.eq_iff_iff, isDigitC_iff, isDigitC_iff]; omega
  · rw [Bool.eq_iff_iff, isDigitC_iff, isDigitC_iff]; omega

theorem caseEqChar_isSpace {a b : Char} (h : caseEqChar a b = true) :
    isSpaceB a = isSpaceB b := by
  rcases caseEqChar_cases h with rfl | ⟨h1, h2, h3⟩ | ⟨h1, h2, h3⟩
  · rfl
  · rw [Bool.eq_iff_iff, isSpaceB_iff, isSpaceB_iff]; omega
  · rw [Bool.eq_iff_iff, isSpaceB_iff, isSpaceB_iff]; omega

theorem caseEqChar_beq {a b : Char} (h : caseEqChar a b = true) (c0 : Char)
    (hup : c0.toNat < 65 ∨ 90 < c0.toNat) (hlo : c0.toNat < 97 ∨ 122 < c0.toNat) :
    (a == c0) = (b == c0) := by
  rcases caseEqChar_cases h with rfl | ⟨h1, h2, h3⟩ | ⟨h1, h2, h3⟩
  · rfl
  · rw [Bool.eq_iff_iff, beq_iff_eq, beq_iff_eq, char_eq_iff, char_eq_iff]; omega
  · rw [Bool.eq_iff_iff, beq_iff_eq, beq_iff_eq, char_eq_iff, char_eq_iff]; omega

theorem caseEqChar_letter {a b : Char} (h : caseEqChar a b = true) (lo up : Char)
    (hr : 65 ≤ up.toNat ∧ up.toNat ≤ 90 ∧ lo.toNat = up.toNat + 32) :
    (a == lo || a == up) = (b == lo || b == up) := by
  rcases caseEqChar_cases h with rfl | ⟨h1, h2, h3⟩ | ⟨h1, h2, h3⟩
  · rfl
  · rw [Bool.eq_iff_iff]
    simp only [Bool.or_eq_true, beq_iff_eq, char_eq_iff]
    omega
  · rw [Bool.eq_iff_iff]
    simp only [Bool.or_eq_true, beq_iff_eq, char_eq_iff]
    omega

theorem caseEqs_nil_right {t : List Char} (h : caseEqs [] t = true) : t = [] := by
  cases t with
  | nil => rfl
  | cons b bs => exact absurd h (by simp [caseEqs])

theorem caseEqs_cons_right {a : Char} {as t : List Char}
    (h : caseEqs (a :: as) t = true) : ∃ b bs, t = b :: bs := by
  cases t with
  | nil => exact absurd h (by simp [caseEqs])
  | cons b bs => exact ⟨b, bs, rfl⟩

theorem caseEqs_cons {a b : Char} {as bs : List Char}
    (h : caseEqs (a :: as) (b :: bs) = true) :
    caseEqChar a b = true ∧ caseEqs as bs = true := by
  simp only [caseEqs, Bool.and_eq_true] at h
  exact h

theorem caseEqs_cons_intro {a b : Char} {as bs : List Char}
    (h1 : caseEqChar a b = true) (h2 : caseEqs as bs = true) :
    caseEqs (a :: as) (b :: bs) = true := by
  simp only [caseEqs, Bool.and_eq_true]
  exact ⟨h1, h2⟩

theorem caseEqs_dropWhile {s : List Char} : ∀ {t : List Char}, caseEqs s t = true →
    caseEqs (s.dropWhile isSpaceB) (t.dropWhile isSpaceB) = true := by
  induction s with
  | nil =>
    intro t h
    rw [caseEqs_nil_right h]
    decide
  | cons a as ih =>
    intro t h
    obtain ⟨b, bs, rfl⟩ := caseEqs_cons_right h
    obtain ⟨h1, h2⟩ := caseEqs_cons h
    have hsp := caseEqChar_isSpace h1
    cases ha : isSpaceB a with
    | false =>
      have hb : isSpaceB b = false := hsp.symm.trans ha
      simp only [List.dropWhile_cons, ha, hb]
      simp only [Bool.false_eq_true, if_false]
      exact caseEqs_cons_intro h1 h2
    | true =>
      have hb : isSpaceB b = true := hsp.symm.trans ha
      simp only [List.dropWhile_cons, ha, hb, if_true]
      exact ih h2

theorem matchAmPm_rel {s t : List Char} (h : caseEqs s t = true) :
    timeMatchRel (matchAmPm s) (matchAmPm t) := by
  cases s with
  | nil =>
    rw [caseEqs_nil_right h]
    trivial
  | cons a s1 =>
    obtain ⟨b, t1, rfl⟩ := caseEqs_cons_right h
    obtain ⟨h1, h2⟩ := caseEqs_cons h
    cases s1 with
    | nil =>
      rw [caseEqs_nil_right h2]
      trivial
    | cons m s2 =>
      obtain ⟨n, t2, rfl⟩ := caseEqs_cons_right h2
      obtain ⟨h3, h4⟩ := caseEqs_cons h2
      have fa := caseEqChar_letter h1 'a' 'A' (by decide)
      have fp := caseEqChar_letter h1 'p' 'P' (by decide)
      have fm := caseEqChar_letter h3 'm' 'M' (by decide)
      simp only [matchAmPm]
      rw [fa, fp, fm]
      cases hc1 : ((b == 'a' || b == 'A') && (n == 'm' || n == 'M')) with
      | true => simp only [hc1, if_true]; exact h4
      | false =>
        simp only [hc1, Bool.false_eq_true, if_false]
        cases hc2 : ((b == 'p' || b == 'P') && (n == 'm' || n == 'M')) with
        | true => simp only [hc2, if_true]; exact h4
        | false => simp only [hc2, Bool.false_eq_true, if_false]; trivial

theorem afterColon_rel (p q : List Char) {s t : List Char} (h : caseEqs s t = true) :
    timeMatchRel (afterColon p s) (afterColon q t) := by
  cases s with
  | nil => rw [caseEqs_nil_right h]; trivial
  | cons c s1 =>
    obtain ⟨c', t1, rfl⟩ := caseEqs_cons_right h
    obtain ⟨h1, h2⟩ := caseEqs_cons h
    cases s1 with
    | nil => rw [caseEqs_nil_right h2]; trivial
    | cons m1 s2 =>
      obtain ⟨n1, t2, rfl⟩ := caseEqs_cons_right h2
      obtain ⟨h3, h4⟩ := caseEqs_cons h2
      cases s2 with
      | nil => rw [caseEqs_nil_right h4]; trivial
      | cons m2 s3 =>
        obtain ⟨n2, t3, rfl⟩ := caseEqs_cons_right h4
        obtain ⟨h5, h6⟩ := caseEqs_cons h4
        have fc := caseEqChar_beq h1 ':' (by decide) (by decide)
        have fd1 := caseEqChar_isDigit h3
        have fd2 := caseEqChar_isDigit h5
        simp only [afterColon]
        rw [fc, fd1, fd2]
        cases hc : ((c' == ':') && (isDigitC n1 && isDigitC n2)) with
        | false => simp only [hc, Bool.false_eq_true, if_false]; trivial
        | true =>
          simp only [hc, if_true]
          have hrel := matchAmPm_rel (caseEqs_dropWhile h6)
          cases hm1 : matchAmPm (s3.dropWhile isSpaceB) with
          | none =>
            cases hm2 : matchAmPm (t3.dropWhile isSpaceB) with
            | none => trivial
            | some v =>
              rw [hm1, hm2] at hrel
              obtain ⟨ap, r⟩ := v
              exact hrel.elim
          | some u =>
            obtain ⟨ap, r⟩ := u
            cases hm2 : matchAmPm (t3.dropWhile isSpaceB) with
            | none =>
              rw [hm1, hm2] at hrel
              exact hrel.elim
            | some v =>
              obtain ⟨ap', r'⟩ := v
              rw [hm1, hm2] at hrel
              exact hrel

theorem matchTimeGroup_rel {s t : List Char} (h : caseEqs s t = true) :
    timeMatchRel (matchTimeGroup s) (matchTimeGroup t) := by
  cases s with
  | nil => rw [caseEqs_nil_right h]; trivial
  | cons d1 s1 =>
    obtain ⟨e1, t1, rfl⟩ := caseEqs_cons_right h
    obtain ⟨h1, h2⟩ := caseEqs_cons h
    cases s1 with
    | nil => rw [caseEqs_nil_right h2]; trivial
    | cons d2 s2 =>
      obtain ⟨e2, t2, rfl⟩ := caseEqs_cons_right h2
      obtain ⟨h3, h4⟩ := caseEqs_cons h2
      have fd1 := caseEqChar_isDigit h1
      have fd2 := caseEqChar_isDigit h3
      simp only [matchTimeGroup]
      rw [fd1, fd2]
      cases hc1 : isDigitC e1 with
      | false => simp only [hc1, Bool.false_eq_true, if_false]; trivial
      | true =>
        simp only [hc1, if_true]
        cases hc2 : isDigitC e2 with
        | true =>
          simp only [hc2, if_true]
          exact afterColon_rel [d1, d2] [e1, e2] h4
        | false =>
          simp only [hc2, Bool.false_eq_true, if_false]
          exact afterColon_rel [d1] [e1] (caseEqs_cons_intro h3 h4)

theorem matchTimeRangeAt_isSome {s t : List Char} (h : caseEqs s t = true) :
    (matchTimeRangeAt s).isSome = (matchTimeRangeAt t).isSome := by
  have hg := matchTimeGroup_rel h
  simp only [matchTimeRangeAt]
  cases h1 : matchTimeGroup s with
  | none =>
    cases h2 : matchTimeGroup t with
    | none => rfl
    | some v => rw [h1, h2] at hg; obtain ⟨g, r⟩ := v; exact hg.elim
  | some u =>
    obtain ⟨g1, r1⟩ := u
    cases h2 : matchTimeGroup t with
    | none => rw [h1, h2] at hg; exact hg.elim
    | some v =>
      obtain ⟨g1', r1'⟩ := v
      rw [h1, h2] at hg
      have hd := caseEqs_dropWhile hg
      dsimp only
      cases e1 : r1.dropWhile isSpaceB with
      | nil =>
        rw [e1] at hd
        rw [caseEqs_nil_right hd]
      | cons c r2 =>
        rw [e1] at hd
        obtain ⟨c', r2', e2⟩ := caseEqs_cons_right hd
        rw [e2] at hd
        obtain ⟨hc, hr⟩ := caseEqs_cons hd
        have fb := caseEqChar_beq hc '-' (by decide) (by decide)
        rw [e2]
        dsimp only
        rw [fb]
        cases hcond : (c' == '-') with
        | false => simp only [hcond, Bool.false_eq_true, if_false]
        | true =>
          simp only [hcond, if_true]
          have hg2 := matchTimeGroup_rel (caseEqs_dropWhile hr)
          cases h3 : matchTimeGroup (r2.dropWhile isSpaceB) with
          | none =>
            cases h4 : matchTimeGroup (r2'.dropWhile isSpaceB) with
            | none => rfl
            | some w => rw [h3, h4] at hg2; obtain ⟨g2, r3⟩ := w; exact hg2.elim
          | some w =>
            obtain ⟨g2, r3⟩ := w
            cases h4 : matchTimeGroup (r2'.dropWhile isSpaceB) with
            | none => rw [h3, h4] at hg2; exact hg2.elim
            | some w' => obtain ⟨g2', r3'⟩ := w'; rfl

theorem searchTimeRange_isSome {s : List Char} : ∀ {t : List Char},
    caseEqs s t = true →
    (searchTimeRange s).isSome = (searchTimeRange t).isSome := by
  induction s with
  | nil =>
    intro t h
    rw [caseEqs_nil_right h]
  | cons a as ih =>
    intro t h
    obtain ⟨b, bs, rfl⟩ := caseEqs_cons_right h
    obtain ⟨h1, h2⟩ := caseEqs_cons h
    have hAt := matchTimeRangeAt_isSome h
    simp only [searchTimeRange]
    cases hs : matchTimeRangeAt (a :: as) with
    | none =>
      cases ht : matchTimeRangeAt (b :: bs) with
      | none => exact ih h2
      | some v => rw [hs, ht] at hAt; exact absurd hAt (by simp)
    | some u =>
      cases ht : matchTimeRangeAt (b :: bs) with
      | none => rw [hs, ht] at hAt; exact absurd hAt (by simp)
      | some v => rfl

/-- C7 counterexample: changing only the letter case of the month name in a
card's text ("Jan" to "jan" — a case-equivalent blob) flips the pipeline from
emitting the event to skipping the card, so date matching is NOT
case-insensitive. -/
theorem C7_cex_month_case_changes_result :
    caseEqs ("Fri 2 Jan | 8:00 am - 9:00 am" : String).data
            ("Fri 2 jan | 8:00 am - 9:00 am" : String).data = true ∧
    processCard 2025
      ⟨some "/whats-on/case", some "Case Test",
       "Fri 2 Jan | 8:00 am - 9:00 am", none, none⟩ =
      .ok (some ⟨"Case Test", ⟨2025, 1, 2, 8, 0, "Europe/London"⟩,
                 ⟨2025, 1, 2, 9, 0, "Europe/London"⟩,
                 "https://www.londonbuddhistcentre.com/whats-on/case", ""⟩) ∧
    processCard 2025
      ⟨some "/whats-on/case", some "Case Test",
       "Fri 2 jan | 8:00 am - 9:00 am", none, none⟩ = .ok none :=
  ⟨by decide, rfl, rfl⟩

/-- C7 (amended): the timed-range pattern (with its am/pm marker) is
case-insensitive — on any two case-equivalent text blobs it matches one iff
it matches the other — but the day-month pattern is case-sensitive: the month
must be written exactly as in the source alternation ("2 Jan" matches while
"2 jan" and "2 JAN" do not). -/
theorem C7_amended_ampm_insensitive_month_sensitive :
    (∀ s t : List Char, caseEqs s t = true →
      (searchTimeRange s).isSome = (searchTimeRange t).isSome) ∧
    (searchDayMon false ("2 Jan" : String).data).isSome = true ∧
    (searchDayMon false ("2 jan" : String).data).isSome = false ∧
    (searchDayMon false ("2 JAN" : String).data).isSome = false :=
  ⟨fun _ _ h => searchTimeRange_isSome h, by decide, by decide, by decide⟩

/-- C7 witness: the general time-pattern case-insensitivity applied to a
concrete pair of case-variant blobs. -/
theorem C7_witness :
    (searchTimeRange ("6:15 pm - 7:30 pm" : String).data).isSome =
      (searchTimeRange ("6:15 PM - 7:30 pM" : String).data).isSome :=
  C7_amended_ampm_insensitive_month_sensitive.1 _ _ (by decide)

end LBC
